import Mathlib

/-!
Shallow embedding of the contractor-platform dashboard
(src/apps/contractor-platform/app/components/system/dashboard.tsx):
the mock API layer (reads and updateProjectProgress), the optimistic
update routine setProgressOptimistic, and the realtime refresh tick.

The mutable module-level mock arrays become explicit state threaded
through each operation: a stateful call takes the backing store and
returns the new store paired with its result.  JavaScript numbers that
the code treats as integers (progress, budget, amounts, revenue) are
modelled as Int.  A thrown exception becomes an Except.error carrying
the thrown message.
-/

/-- Status enumeration of a project (dashboard.tsx, type Project). -/
inductive ProjectStatus
  | pending
  | inProgress
  | completed
  | onHold
deriving DecidableEq

/-- A project record (dashboard.tsx, type Project). -/
structure Project where
  id : String
  name : String
  client : String
  status : ProjectStatus
  progress : Int
  budget : Int
  dueDate : String
deriving DecidableEq

/-- Status enumeration of an invoice (dashboard.tsx, type Invoice). -/
inductive InvoiceStatus
  | pending
  | paid
  | overdue
deriving DecidableEq

/-- An invoice record (dashboard.tsx, type Invoice). -/
structure Invoice where
  id : String
  projectId : String
  amount : Int
  status : InvoiceStatus
  issuedOn : String
deriving DecidableEq

/-- Severity enumeration of a notification (dashboard.tsx, type NotificationItem). -/
inductive Severity
  | info
  | warning
  | error
deriving DecidableEq

/-- A notification record (dashboard.tsx, type NotificationItem). -/
structure NotificationItem where
  id : String
  message : String
  createdAt : String
  severity : Severity
deriving DecidableEq

/-- A revenue data point (dashboard.tsx, type RevenuePoint). -/
structure RevenuePoint where
  month : String
  revenue : Int
deriving DecidableEq

/-- First seeded mock project (dashboard.tsx lines 67-75). -/
def MOCK_P1 : Project :=
  { id := "p1", name := "Website Redesign", client := "Acme AG",
    status := ProjectStatus.inProgress, progress := 62, budget := 18000,
    dueDate := "2025-09-30" }

/-- Second seeded mock project (dashboard.tsx lines 76-84). -/
def MOCK_P2 : Project :=
  { id := "p2", name := "Mobile App MVP", client := "Glacier GmbH",
    status := ProjectStatus.pending, progress := 8, budget := 42000,
    dueDate := "2025-12-01" }

/-- Third seeded mock project (dashboard.tsx lines 85-93). -/
def MOCK_P3 : Project :=
  { id := "p3", name := "Marketing Automation", client := "Helvetia Corp",
    status := ProjectStatus.completed, progress := 100, budget := 9500,
    dueDate := "2025-07-10" }

/-- Fourth seeded mock project (dashboard.tsx lines 94-102). -/
def MOCK_P4 : Project :=
  { id := "p4", name := "Data Pipeline", client := "Matterhorn SA",
    status := ProjectStatus.onHold, progress := 25, budget := 30000,
    dueDate := "2025-10-15" }

/-- The seeded mock project store MOCK_PROJECTS (dashboard.tsx lines 66-103). -/
def MOCK_PROJECTS : List Project := [MOCK_P1, MOCK_P2, MOCK_P3, MOCK_P4]

/-- JSON.parse(JSON.stringify(p)) on a project record: a structural deep copy
that rebuilds every field (all fields are JSON-representable strings and
numbers, so the round trip is exact). -/
def deepCopyProject (p : Project) : Project :=
  { id := p.id, name := p.name, client := p.client, status := p.status,
    progress := p.progress, budget := p.budget, dueDate := p.dueDate }

/-- Deep copy of an invoice record, as produced by the JSON round trip. -/
def deepCopyInvoice (v : Invoice) : Invoice :=
  { id := v.id, projectId := v.projectId, amount := v.amount,
    status := v.status, issuedOn := v.issuedOn }

/-- Deep copy of a notification record, as produced by the JSON round trip. -/
def deepCopyNotification (n : NotificationItem) : NotificationItem :=
  { id := n.id, message := n.message, createdAt := n.createdAt,
    severity := n.severity }

/-- Deep copy of a revenue point, as produced by the JSON round trip. -/
def deepCopyRevenuePoint (r : RevenuePoint) : RevenuePoint :=
  { month := r.month, revenue := r.revenue }

/-- api.getProjects (mock branch, dashboard.tsx lines 175-182): returns the
backing store unchanged together with a deep copy of the project collection. -/
def getProjects (store : List Project) : List Project × List Project :=
  (store, store.map deepCopyProject)

/-- api.getInvoices (mock branch, dashboard.tsx lines 183-190). -/
def getInvoices (store : List Invoice) : List Invoice × List Invoice :=
  (store, store.map deepCopyInvoice)

/-- api.getNotifications (mock branch, dashboard.tsx lines 191-198). -/
def getNotifications (store : List NotificationItem) :
    List NotificationItem × List NotificationItem :=
  (store, store.map deepCopyNotification)

/-- api.getRevenue (mock branch, dashboard.tsx lines 199-206). -/
def getRevenue (store : List RevenuePoint) :
    List RevenuePoint × List RevenuePoint :=
  (store, store.map deepCopyRevenuePoint)

/-- The record rewrite shared by api.updateProjectProgress (line 212-216) and
the optimistic phase of setProgressOptimistic (line 383-389): progress is
replaced by the submitted value and status is forced to Completed when the
value reaches 100, otherwise the prior status is kept. -/
def withProgress (p : Project) (v : Int) : Project :=
  { p with progress := v,
           status := if 100 ≤ v then ProjectStatus.completed else p.status }

/-- api.updateProjectProgress (mock branch, dashboard.tsx lines 208-220):
findIndex locates the first project with the given id; if found, that slot is
overwritten with the rewritten record and a deep-copied snapshot of it is
returned; otherwise an Error with message Project not found is thrown.  The
recursion mirrors findIndex-then-set: it rewrites the first match in place and
leaves every other entry untouched. -/
def updateProjectProgress :
    List Project → String → Int → List Project × Except String Project
  | [], _, _ => ([], Except.error "Project not found")
  | p :: ps, id, v =>
    if p.id = id then
      (withProgress p v :: ps, Except.ok (deepCopyProject (withProgress p v)))
    else
      let r := updateProjectProgress ps id v
      (p :: r.1, r.2)

/-- The optimistic phase of setProgressOptimistic (dashboard.tsx lines
381-391): every view entry whose id matches the target project is rewritten
with the new progress (and Completed status when the value reaches 100);
every other entry is mapped to itself. -/
def optimisticPhase (view : List Project) (projectId : String) (next : Int) :
    List Project :=
  view.map fun p => if p.id = projectId then withProgress p next else p

/-- setProgressOptimistic (dashboard.tsx lines 379-399), as a function from
the backing store and the view state to the resulting pair.  The optimistic
rewrite of the view happens first; then the write is issued against the
store.  On success the optimistic view stands; on failure the catch block
re-fetches the full project collection and replaces the view wholesale. -/
def setProgressOptimistic (store view : List Project) (projectId : String)
    (next : Int) : List Project × List Project :=
  let view1 := optimisticPhase view projectId next
  let r := updateProjectProgress store projectId next
  match r.2 with
  | Except.ok _ => (r.1, view1)
  | Except.error _ => (r.1, (getProjects r.1).2)

/-- One project's treatment by the realtime tick (dashboard.tsx lines
329-341): a project In Progress has its progress advanced by the drawn
increment, capped at 100; any other project is returned unchanged.  The
argument r stands for the drawn Math.round(Math.random() * 3). -/
def tickProject (r : Int) (p : Project) : Project :=
  if p.status = ProjectStatus.inProgress then
    { p with progress := min 100 (p.progress + r) }
  else p

/-- The project half of the realtime tick (dashboard.tsx lines 329-341):
prev.map with a fresh random draw per element, modelled by an oracle r
indexed by list position. -/
def tickProjects (r : Nat → Int) : List Project → List Project
  | [] => []
  | p :: ps => tickProject (r 0) p :: tickProjects (fun i => r (i + 1)) ps

/-- clamp(V, lo, hi) as the spec writes it. -/
def clampTo (v lo hi : Int) : Int := max lo (min hi v)

/-! Helper lemmas about the deep copies and the update recursion. -/

theorem deepCopyProject_eq (p : Project) : deepCopyProject p = p := rfl

theorem deepCopyInvoice_eq (v : Invoice) : deepCopyInvoice v = v := rfl

theorem deepCopyNotification_eq (n : NotificationItem) :
    deepCopyNotification n = n := rfl

theorem deepCopyRevenuePoint_eq (r : RevenuePoint) :
    deepCopyRevenuePoint r = r := rfl

theorem map_deepCopyProject : ∀ l : List Project, l.map deepCopyProject = l
  | [] => rfl
  | a :: as => by
      rw [List.map_cons, map_deepCopyProject as, deepCopyProject_eq]

theorem map_deepCopyInvoice : ∀ l : List Invoice, l.map deepCopyInvoice = l
  | [] => rfl
  | a :: as => by
      rw [List.map_cons, map_deepCopyInvoice as, deepCopyInvoice_eq]

theorem map_deepCopyNotification :
    ∀ l : List NotificationItem, l.map deepCopyNotification = l
  | [] => rfl
  | a :: as => by
      rw [List.map_cons, map_deepCopyNotification as, deepCopyNotification_eq]

theorem map_deepCopyRevenuePoint :
    ∀ l : List RevenuePoint, l.map deepCopyRevenuePoint = l
  | [] => rfl
  | a :: as => by
      rw [List.map_cons, map_deepCopyRevenuePoint as, deepCopyRevenuePoint_eq]

theorem list_getElem_set_self {α : Type} (l : List α) (i : Nat) (a b : α)
    (h : l[i]? = some a) : (l.set i b)[i]? = some b := by
  induction l generalizing i with
  | nil => simp at h
  | cons x xs ih =>
    cases i with
    | zero => simp [List.set]
    | succ n =>
      have := ih n (by simpa using h)
      simpa [List.set] using this

theorem list_set_self {α : Type} (l : List α) (i : Nat) (a : α)
    (h : l[i]? = some a) : l.set i a = l := by
  induction l generalizing i with
  | nil => rfl
  | cons x xs ih =>
    cases i with
    | zero =>
      simp at h
      simp [List.set, h]
    | succ n =>
      simp [List.set, ih n (by simpa using h)]

theorem list_take_set {α : Type} (l : List α) (i : Nat) (a : α) :
    (l.set i a).take i = l.take i := by
  induction l generalizing i with
  | nil => rfl
  | cons x xs ih =>
    cases i with
    | zero => rfl
    | succ n => simp [List.set, List.take_succ_cons, ih]

theorem update_first_match (store : List Project) (id : String) (v : Int)
    (i : Nat) (p : Project) (hp : store[i]? = some p) (hid : p.id = id)
    (hfirst : ∀ q ∈ store.take i, q.id ≠ id) :
    updateProjectProgress store id v
      = (store.set i (withProgress p v), Except.ok (withProgress p v)) := by
  induction store generalizing i with
  | nil => simp at hp
  | cons a as ih =>
    cases i with
    | zero =>
      simp at hp
      subst hp
      simp [updateProjectProgress, hid, deepCopyProject_eq, List.set]
    | succ n =>
      have ha : a.id ≠ id := hfirst a (by simp [List.take_succ_cons])
      have hp' : as[n]? = some p := by simpa using hp
      have hfirst' : ∀ q ∈ as.take n, q.id ≠ id := fun q hq =>
        hfirst q (by simp [List.take_succ_cons, hq])
      simp [updateProjectProgress, ha, ih n hp' hfirst', List.set]

theorem exists_first_match (store : List Project) (id : String)
    (h : ∃ p ∈ store, p.id = id) :
    ∃ i p, store[i]? = some p ∧ p.id = id ∧
      ∀ q ∈ store.take i, q.id ≠ id := by
  induction store with
  | nil => simp at h
  | cons a as ih =>
    by_cases ha : a.id = id
    · exact ⟨0, a, by simp, ha, by simp⟩
    · obtain ⟨p, hp, hpid⟩ := h
      rcases List.mem_cons.mp hp with h1 | h2
      · exact absurd hpid (h1 ▸ ha)
      · obtain ⟨i, p', hp', hid', hfirst'⟩ := ih ⟨p, h2, hpid⟩
        refine ⟨i + 1, p', by simpa using hp', hid', fun q hq => ?_⟩
        rw [List.take_succ_cons] at hq
        rcases List.mem_cons.mp hq with h3 | h4
        · exact h3 ▸ ha
        · exact hfirst' q h4

theorem update_not_found (store : List Project) (id : String) (v : Int)
    (h : ∀ p ∈ store, p.id ≠ id) :
    updateProjectProgress store id v
      = (store, Except.error "Project not found") := by
  induction store with
  | nil => rfl
  | cons a as ih =>
    have ha : a.id ≠ id := h a (List.mem_cons_self a as)
    have h' : ∀ p ∈ as, p.id ≠ id := fun p hp => h p (List.mem_cons_of_mem a hp)
    simp [updateProjectProgress, ha, ih h']

theorem update_error_iff (store : List Project) (id : String) (v : Int) :
    (updateProjectProgress store id v).2 = Except.error "Project not found"
      ↔ ∀ p ∈ store, p.id ≠ id := by
  induction store with
  | nil => simp [updateProjectProgress]
  | cons a as ih =>
    by_cases ha : a.id = id
    · simp [updateProjectProgress, ha]
    · simp [updateProjectProgress, ha, ih]

theorem update_ok_iff (store : List Project) (id : String) (v : Int) :
    (∃ q, (updateProjectProgress store id v).2 = Except.ok q)
      ↔ ∃ p ∈ store, p.id = id := by
  induction store with
  | nil => simp [updateProjectProgress]
  | cons a as ih =>
    by_cases ha : a.id = id
    · simp [updateProjectProgress, ha]
    · simp [updateProjectProgress, ha, ih]

theorem tickProjects_getElem (r : Nat → Int) (ps : List Project) (i : Nat)
    (p : Project) (hp : ps[i]? = some p) :
    (tickProjects r ps)[i]? = some (tickProject (r i) p) := by
  induction ps generalizing r i with
  | nil => simp at hp
  | cons a as ih =>
    cases i with
    | zero =>
      simp at hp
      subst hp
      simp [tickProjects]
    | succ n =>
      have := ih (fun j => r (j + 1)) n (by simpa using hp)
      simpa [tickProjects] using this

/-! Claim theorems. -/

/-- Claim C1: for every project identifier present in the backing store and
every target value V, updateProjectProgress overwrites that project's slot
with a record whose progress is V and whose status is Completed exactly when
V reaches 100 and the prior status otherwise, and returns that updated record
as its snapshot. -/
theorem updateProjectProgress_replaces_and_normalizes
    (store : List Project) (id : String) (v : Int)
    (h : ∃ p ∈ store, p.id = id) :
    ∃ i p, store[i]? = some p ∧ p.id = id ∧
      updateProjectProgress store id v
        = (store.set i (withProgress p v), Except.ok (withProgress p v)) ∧
      (withProgress p v).progress = v ∧
      (withProgress p v).status
        = (if 100 ≤ v then ProjectStatus.completed else p.status) := by
  obtain ⟨i, p, hp, hid, hfirst⟩ := exists_first_match store id h
  exact ⟨i, p, hp, hid, update_first_match store id v i p hp hid hfirst,
    rfl, rfl⟩

/-- Witness for C1 at the seeded store, project p1, value 70. -/
theorem updateProjectProgress_replaces_and_normalizes_witness :
    ∃ i p, MOCK_PROJECTS[i]? = some p ∧ p.id = "p1" ∧
      updateProjectProgress MOCK_PROJECTS "p1" 70
        = (MOCK_PROJECTS.set i (withProgress p 70),
           Except.ok (withProgress p 70)) ∧
      (withProgress p 70).progress = 70 ∧
      (withProgress p 70).status
        = (if 100 ≤ (70 : Int) then ProjectStatus.completed else p.status) :=
  updateProjectProgress_replaces_and_normalizes MOCK_PROJECTS "p1" 70
    ⟨MOCK_P1, by decide, by decide⟩

/-- Claim C2: the optimistic phase of setProgressOptimistic rewrites every
view entry whose id matches the target project with the submitted progress
(status Completed when it reaches 100) and maps every other entry to itself;
this rewrite is computed before the write to the store is consulted. -/
theorem optimisticPhase_rewrites_target
    (view : List Project) (projectId : String) (next : Int) (i : Nat)
    (p : Project) (hp : view[i]? = some p) :
    (optimisticPhase view projectId next)[i]?
      = some (if p.id = projectId then withProgress p next else p) := by
  simp [optimisticPhase, hp]

/-- Witness for C2 at the seeded store, project p1, value 100, slot 0. -/
theorem optimisticPhase_rewrites_target_witness :
    (optimisticPhase MOCK_PROJECTS "p1" 100)[0]?
      = some (if MOCK_P1.id = "p1" then withProgress MOCK_P1 100 else MOCK_P1) :=
  optimisticPhase_rewrites_target MOCK_PROJECTS "p1" 100 0 MOCK_P1 (by decide)

/-- Claim C3: when the write fails because the identifier is unknown to the
backing store, the failure path of setProgressOptimistic re-fetches the full
project collection and replaces the view wholesale, so the resulting view
equals the backing store's current snapshot exactly (and the store is
unchanged). -/
theorem setProgressOptimistic_failure_reconciles
    (store view : List Project) (projectId : String) (next : Int)
    (h : ∀ p ∈ store, p.id ≠ projectId) :
    setProgressOptimistic store view projectId next = (store, store) := by
  have h1 := update_not_found store projectId next h
  simp [setProgressOptimistic, h1, getProjects, map_deepCopyProject]

/-- Witness for C3 at the seeded store with an unknown identifier p9. -/
theorem setProgressOptimistic_failure_reconciles_witness :
    setProgressOptimistic MOCK_PROJECTS MOCK_PROJECTS "p9" 50
      = (MOCK_PROJECTS, MOCK_PROJECTS) :=
  setProgressOptimistic_failure_reconciles MOCK_PROJECTS MOCK_PROJECTS "p9" 50
    (by decide)

/-- Claim C4: the write fails with the not-found error exactly when no project
with the given identifier exists in the backing store, and returns a
successful result exactly when one exists. -/
theorem updateProjectProgress_notFound_iff
    (store : List Project) (id : String) (v : Int) :
    ((updateProjectProgress store id v).2 = Except.error "Project not found"
        ↔ ∀ p ∈ store, p.id ≠ id)
    ∧ ((∃ q, (updateProjectProgress store id v).2 = Except.ok q)
        ↔ ∃ p ∈ store, p.id = id) :=
  ⟨update_error_iff store id v, update_ok_iff store id v⟩

/-- Claim C5: the write performs no clamping: for any identifier present in
the store and any submitted value V, values outside [0,100] included, the
snapshot and the updated slot carry progress exactly V. -/
theorem updateProjectProgress_no_clamp
    (store : List Project) (id : String) (v : Int)
    (h : ∃ p ∈ store, p.id = id) :
    ∃ (store' : List Project) (q : Project) (i : Nat),
      updateProjectProgress store id v = (store', Except.ok q)
      ∧ q.progress = v ∧ store'[i]? = some q := by
  obtain ⟨i, p, hp, hid, hfirst⟩ := exists_first_match store id h
  exact ⟨store.set i (withProgress p v), withProgress p v, i,
    update_first_match store id v i p hp hid hfirst, rfl,
    list_getElem_set_self store i p (withProgress p v) hp⟩

/-- Witness for C5 at the seeded store, project p1, out-of-range value 150,
together with the fact that 150 is not its own clamp to [0,100]. -/
theorem updateProjectProgress_no_clamp_witness :
    (∃ (store' : List Project) (q : Project) (i : Nat),
        updateProjectProgress MOCK_PROJECTS "p1" 150 = (store', Except.ok q)
        ∧ q.progress = 150 ∧ store'[i]? = some q)
    ∧ ¬ (150 : Int) = clampTo 150 0 100 :=
  ⟨updateProjectProgress_no_clamp MOCK_PROJECTS "p1" 150
      ⟨MOCK_P1, by decide, by decide⟩,
    by decide⟩

/-- Claim C6: once a project's status is Completed, a later call to the write
operation with any value, values below 100 included, replaces the progress
but keeps the status Completed. -/
theorem updateProjectProgress_keeps_completed
    (store : List Project) (id : String) (v : Int) (i : Nat) (p : Project)
    (hp : store[i]? = some p) (hid : p.id = id)
    (hfirst : ∀ q ∈ store.take i, q.id ≠ id)
    (hc : p.status = ProjectStatus.completed) :
    updateProjectProgress store id v
      = (store.set i (withProgress p v), Except.ok (withProgress p v))
    ∧ (withProgress p v).status = ProjectStatus.completed
    ∧ (withProgress p v).progress = v := by
  refine ⟨update_first_match store id v i p hp hid hfirst, ?_, rfl⟩
  simp only [withProgress, hc]
  split <;> rfl

/-- Witness for C6 at the seeded store: p3 is Completed at slot 2 and an
update to 40 keeps it Completed. -/
theorem updateProjectProgress_keeps_completed_witness :
    updateProjectProgress MOCK_PROJECTS "p3" 40
      = (MOCK_PROJECTS.set 2 (withProgress MOCK_P3 40),
         Except.ok (withProgress MOCK_P3 40))
    ∧ (withProgress MOCK_P3 40).status = ProjectStatus.completed
    ∧ (withProgress MOCK_P3 40).progress = 40 :=
  updateProjectProgress_keeps_completed MOCK_PROJECTS "p3" 40 2 MOCK_P3
    (by decide) (by decide) (by decide) (by decide)

/-- Claim C7: one realtime tick advances exactly the In Progress projects, by
the drawn increment r i (bounded by 0 and 3, as Math.round of a random in
[0,1) times 3 is) capped at 100; it never changes any status, leaves every
non-In-Progress project entirely unchanged, and sends an In Progress project
at progress 90 to a progress in [90, 93] still In Progress. -/
theorem tick_advances_only_inProgress (r : Nat → Int) (ps : List Project)
    (i : Nat) (p : Project) (hp : ps[i]? = some p)
    (hr0 : 0 ≤ r i) (hr3 : r i ≤ 3) :
    (tickProjects r ps)[i]? = some (tickProject (r i) p)
    ∧ (tickProject (r i) p).status = p.status
    ∧ (p.status = ProjectStatus.inProgress →
        (tickProject (r i) p).progress = min 100 (p.progress + r i))
    ∧ (p.status ≠ ProjectStatus.inProgress → tickProject (r i) p = p)
    ∧ (p.status = ProjectStatus.inProgress → p.progress = 90 →
        90 ≤ (tickProject (r i) p).progress
        ∧ (tickProject (r i) p).progress ≤ 93
        ∧ (tickProject (r i) p).status = ProjectStatus.inProgress) := by
  refine ⟨tickProjects_getElem r ps i p hp, ?_, ?_, ?_, ?_⟩
  · simp only [tickProject]
    split <;> rfl
  · intro hs
    simp [tickProject, hs]
  · intro hs
    simp [tickProject, hs]
  · intro hs h90
    have hmin : min 100 (p.progress + r i) = p.progress + r i := by
      rw [h90]
      omega
    refine ⟨?_, ?_, ?_⟩ <;> simp [tickProject, hs, hmin, h90] <;> omega

/-- Witness for C7: the seeded store with a drawn increment of 2 everywhere,
at slot 0 where p1 is In Progress with progress 62. -/
theorem tick_advances_only_inProgress_witness :
    (tickProjects (fun _ => 2) MOCK_PROJECTS)[0]?
      = some (tickProject 2 MOCK_P1)
    ∧ (tickProject 2 MOCK_P1).status = MOCK_P1.status
    ∧ (MOCK_P1.status = ProjectStatus.inProgress →
        (tickProject 2 MOCK_P1).progress = min 100 (MOCK_P1.progress + 2))
    ∧ (MOCK_P1.status ≠ ProjectStatus.inProgress →
        tickProject 2 MOCK_P1 = MOCK_P1)
    ∧ (MOCK_P1.status = ProjectStatus.inProgress → MOCK_P1.progress = 90 →
        90 ≤ (tickProject 2 MOCK_P1).progress
        ∧ (tickProject 2 MOCK_P1).progress ≤ 93
        ∧ (tickProject 2 MOCK_P1).status = ProjectStatus.inProgress) :=
  tick_advances_only_inProgress (fun _ => 2) MOCK_PROJECTS 0 MOCK_P1
    (by decide) (by decide) (by decide)

/-- Claim C8: the write is idempotent at progress 100: for a project present
in the store, a first call with 100 yields a snapshot with progress 100 and
status Completed, and a second call with 100 returns the very same store and
the very same snapshot, changing nothing. -/
theorem updateProjectProgress_idempotent_at_100
    (store : List Project) (id : String) (i : Nat) (p : Project)
    (hp : store[i]? = some p) (hid : p.id = id)
    (hfirst : ∀ q ∈ store.take i, q.id ≠ id) :
    ∃ (s1 : List Project) (q : Project),
      updateProjectProgress store id 100 = (s1, Except.ok q)
      ∧ q.progress = 100 ∧ q.status = ProjectStatus.completed
      ∧ updateProjectProgress s1 id 100 = (s1, Except.ok q) := by
  have h1 := update_first_match store id 100 i p hp hid hfirst
  have hq100 : withProgress (withProgress p 100) 100 = withProgress p 100 := by
    simp [withProgress]
  have hp1 : (store.set i (withProgress p 100))[i]? = some (withProgress p 100) :=
    list_getElem_set_self store i p (withProgress p 100) hp
  have hid1 : (withProgress p 100).id = id := hid
  have hfirst1 : ∀ x ∈ (store.set i (withProgress p 100)).take i, x.id ≠ id := by
    rw [list_take_set]
    exact hfirst
  have h2 := update_first_match (store.set i (withProgress p 100)) id 100 i
    (withProgress p 100) hp1 hid1 hfirst1
  rw [hq100, list_set_self _ i _ hp1] at h2
  exact ⟨store.set i (withProgress p 100), withProgress p 100, h1, rfl,
    by simp [withProgress], h2⟩

/-- Witness for C8 at the seeded store, project p1 at slot 0. -/
theorem updateProjectProgress_idempotent_at_100_witness :
    ∃ (s1 : List Project) (q : Project),
      updateProjectProgress MOCK_PROJECTS "p1" 100 = (s1, Except.ok q)
      ∧ q.progress = 100 ∧ q.status = ProjectStatus.completed
      ∧ updateProjectProgress s1 "p1" 100 = (s1, Except.ok q) :=
  updateProjectProgress_idempotent_at_100 MOCK_PROJECTS "p1" 0 MOCK_P1
    (by decide) (by decide) (by decide)

/-- Claim C9: every read operation returns a snapshot whose contents equal
the backing store's current entries and leaves the store unchanged; the
snapshot is a field-by-field deep copy, so the store is not reachable
through the returned value. -/
theorem reads_return_snapshots (ps : List Project) (il : List Invoice)
    (nl : List NotificationItem) (rl : List RevenuePoint) :
    getProjects ps = (ps, ps) ∧ getInvoices il = (il, il)
    ∧ getNotifications nl = (nl, nl) ∧ getRevenue rl = (rl, rl) := by
  refine ⟨?_, ?_, ?_, ?_⟩
  · simp [getProjects, map_deepCopyProject]
  · simp [getInvoices, map_deepCopyInvoice]
  · simp [getNotifications, map_deepCopyNotification]
  · simp [getRevenue, map_deepCopyRevenuePoint]

/-- Claim C10: a failed write is atomic: called with an identifier matching
no project, updateProjectProgress raises the not-found error and returns the
backing store exactly as it was, with no slot modified. -/
theorem updateProjectProgress_atomic_on_failure
    (store : List Project) (id : String) (v : Int)
    (h : ∀ p ∈ store, p.id ≠ id) :
    updateProjectProgress store id v
      = (store, Except.error "Project not found") :=
  update_not_found store id v h

/-- Witness for C10 at the seeded store with the unknown identifier p9. -/
theorem updateProjectProgress_atomic_on_failure_witness :
    updateProjectProgress MOCK_PROJECTS "p9" 55
      = (MOCK_PROJECTS, Except.error "Project not found") :=
  updateProjectProgress_atomic_on_failure MOCK_PROJECTS "p9" 55 (by decide)
